import Mathlib

/-!
Verification of the arbitrage execution engine of `bot.py`.

The engine is shallowly embedded: venue identifiers and asset symbols are
natural numbers, Python `Decimal` values are rationals (the arithmetic the
engine performs on them is exact), and each remote venue is modelled by the
data that determines the engine's behaviour: the response of its
`fetch_balance` endpoint and whether its market-order endpoint succeeds.
Every operation returns, besides its value, the list of remote venue calls
it issues, so that claims about "zero remote calls" are about the model's
trace.
-/

/-- Venue identifier (Python: the `exchange_id` string key). -/
abbrev VenueId := Nat

/-- Asset symbol (Python: strings such as `"BTC"`). -/
abbrev Asset := Nat

/-- The default symbol `"BTC"` used by `get_balance` and `place_order`. -/
def btc : Asset := 0

/-- Order side. Python passes the strings `"buy"` / `"sell"`; `place_order`
branches on `side == "buy"`. -/
inductive Side where
  | buy
  | sell
deriving DecidableEq, Repr

/-- Per-venue static configuration (`ExchangeConfig` dataclass, bot.py:17-23). -/
structure ExchangeConfig where
  trading_fee : ℚ
  withdrawal_fee : ℚ
  min_order_size : ℚ
  max_order_size : ℚ
  rate_limit : Nat
deriving DecidableEq, Repr

/-- The behaviour of one remote venue, as observable by the engine.

`fetchBalance = none` models `fetch_balance` raising (network/auth failure);
`fetchBalance = some entries` models the returned mapping, where each entry
maps a symbol to an optional `free` field (`none` = the symbol's record has
no `free` key). `orderOk` tells whether a market-order call returns normally
or raises. -/
structure VenueState where
  fetchBalance : Option (List (Asset × Option ℚ))
  orderOk : Bool
deriving DecidableEq, Repr

/-- A successfully placed market order, as the engine records it. -/
structure Order where
  venue : VenueId
  side : Side
  amount : ℚ
deriving DecidableEq, Repr

/-- A remote venue call issued by the engine (the observable side effects). -/
inductive VenueCall where
  | fetchBalance (venue : VenueId)
  | marketOrder (venue : VenueId) (side : Side) (amount : ℚ)
deriving DecidableEq, Repr

/-- How one invocation of `execute_arbitrage` terminates.

`sizeError` is the `ValueError` of `min()` over an empty snapshot
(bot.py:90); `abortedBalances` is the early return at bot.py:112;
`snapshotError` is the uncaught `KeyError` of `prices[exchange]` in the
slippage sum (bot.py:116) when a leg is absent from the snapshot;
`failedLeg k orders` is the early return at bot.py:131 with the orders
accumulated for legs `0..k-1`; `completed orders` is normal completion of
the loop. -/
inductive ExecResult where
  | sizeError
  | abortedBalances
  | snapshotError
  | failedLeg (k : Nat) (orders : List Order)
  | completed (orders : List Order)
deriving DecidableEq, Repr

/-- Result of `execute_arbitrage` together with its observable trace:
the remote venue calls issued and the number of times the engine invoked
`place_order`. -/
structure ExecTrace where
  result : ExecResult
  calls : List VenueCall
  orderAttempts : Nat
deriving DecidableEq, Repr

/-- The engine's environment: per-venue configuration and per-venue remote
behaviour (`self.exchange_configs` / `self.exchanges`). -/
structure Env where
  configs : VenueId → ExchangeConfig
  venues : VenueId → VenueState

/-- bot.py:34-42 — `get_balance`. On a successful fetch it returns
`Decimal(str(balance.get(symbol, {}).get('free', 0)))`: the `free` field if
present, otherwise `0`. On any exception it returns `None` (here `none`). -/
def get_balance (venue : VenueState) (symbol : Asset) : Option ℚ :=
  match venue.fetchBalance with
  | none => none
  | some entries =>
    match entries.lookup symbol with
    | none => some 0
    | some none => some 0
    | some (some free) => some free

/-- bot.py:55-84 — `place_order`. Size bounds are validated first (no remote
call on violation); then the balance is fetched (one remote call, symbol
`"BTC"`); `if not balance or balance < amount` fails without submitting an
order; otherwise the market order is submitted (remote call issued even when
the venue raises, matching that an exception can follow partial execution). -/
def place_order (config : ExchangeConfig) (venue : VenueState) (exchange_id : VenueId)
    (side : Side) (amount : ℚ) : Option Order × List VenueCall :=
  if amount < config.min_order_size then (none, [])
  else if config.max_order_size < amount then (none, [])
  else
    match get_balance venue btc with
    | none => (none, [VenueCall.fetchBalance exchange_id])
    | some balance =>
      if balance = 0 ∨ balance < amount then (none, [VenueCall.fetchBalance exchange_id])
      else
        if venue.orderOk then
          (some ⟨exchange_id, side, amount⟩,
           [VenueCall.fetchBalance exchange_id, VenueCall.marketOrder exchange_id side amount])
        else
          (none,
           [VenueCall.fetchBalance exchange_id, VenueCall.marketOrder exchange_id side amount])

/-- bot.py:86-94 — `calculate_optimal_order_size`:
`min(Decimal('0.001'), min(rate over snapshot values) * Decimal('0.01'))`.
`min()` over an empty snapshot raises `ValueError`, modelled as `none`. -/
def calculate_optimal_order_size (prices : List (VenueId × ℚ)) : Option ℚ :=
  match prices.map Prod.snd with
  | [] => none
  | r :: rs => some (min (1/1000 : ℚ) ((rs.foldl min r) * (1/100)))

/-- bot.py:96-100 — `estimate_slippage` returns the constant `0.001`. -/
def estimate_slippage (_exchange_id : VenueId) (_order_size : ℚ) (_price : ℚ) : ℚ :=
  1/1000

/-- bot.py:115-118 — the `total_slippage` sum over the opportunity's legs
(computed by `execute_arbitrage` and never used afterwards). -/
def total_slippage (opportunity : List VenueId) (order_size : ℚ)
    (prices : List (VenueId × ℚ)) : ℚ :=
  (opportunity.map
    (fun v => estimate_slippage v order_size ((prices.lookup v).getD 0))).sum

/-- bot.py:121-132 — the execution loop body, over the legs actually
iterated (`range(len(opportunity) - 1)`, i.e. all legs but the last), with
`i` the current index and `acc` the accumulated `orders` list. Every leg is
submitted with side `"buy"` (bot.py:125). Returns the result, the venue
calls issued, and the number of `place_order` invocations. -/
def runLegs (env : Env) (order_size : ℚ) :
    List VenueId → Nat → List Order → ExecResult × List VenueCall × Nat
  | [], _, acc => (ExecResult.completed acc, [], 0)
  | v :: rest, i, acc =>
    let pr := place_order (env.configs v) (env.venues v) v Side.buy order_size
    match pr.1 with
    | none => (ExecResult.failedLeg i acc, pr.2, 1)
    | some o =>
      let r := runLegs env order_size rest (i + 1) (acc ++ [o])
      (r.1, pr.2 ++ r.2.1, 1 + r.2.2)

/-- bot.py:102-132 — `execute_arbitrage`. Sizing first (may raise on an
empty snapshot), then one concurrent `get_balance` per leg (each one a
remote call), early return if any is `None`, then the slippage sum (which
raises `KeyError` when a leg is missing from the snapshot), then the
sequential order loop over all legs except the last. -/
def execute_arbitrage (env : Env) (opportunity : List VenueId)
    (prices : List (VenueId × ℚ)) : ExecTrace :=
  match calculate_optimal_order_size prices with
  | none => ⟨ExecResult.sizeError, [], 0⟩
  | some order_size =>
    let balCalls := opportunity.map VenueCall.fetchBalance
    let balances := opportunity.map (fun v => get_balance (env.venues v) btc)
    if balances.any Option.isNone then
      ⟨ExecResult.abortedBalances, balCalls, 0⟩
    else if opportunity.all (fun v => (prices.lookup v).isSome) then
      let r := runLegs env order_size opportunity.dropLast 0 []
      ⟨r.1, balCalls ++ r.2.1, r.2.2⟩
    else
      ⟨ExecResult.snapshotError, balCalls, 0⟩

/-! ### Helper lemmas -/

/-- A successful `place_order` returns exactly the market order it was asked
to place. -/
theorem place_order_eq_some {config : ExchangeConfig} {venue : VenueState}
    {exchange_id : VenueId} {side : Side} {amount : ℚ} {o : Order}
    (h : (place_order config venue exchange_id side amount).1 = some o) :
    o = ⟨exchange_id, side, amount⟩ := by
  unfold place_order at h
  split at h
  · simp at h
  · split at h
    · simp at h
    · rcases hb : get_balance venue btc with _ | b
      · rw [hb] at h; simp at h
      · rw [hb] at h
        simp only at h
        split at h
        · simp at h
        · split at h
          · simp at h
            exact h.symm
          · simp at h

/-- The order size is computed exactly when the snapshot is non-empty. -/
theorem calculate_optimal_order_size_isSome {prices : List (VenueId × ℚ)}
    (h : prices ≠ []) : ∃ s, calculate_optimal_order_size prices = some s := by
  unfold calculate_optimal_order_size
  cases prices with
  | nil => exact absurd rfl h
  | cons p ps => exact ⟨_, rfl⟩

/-- The loop body of `execute_arbitrage` that ends in `completed` has placed
exactly one (buy) order of the computed size per iterated leg, appended in
leg order after the accumulator. -/
theorem runLegs_completed_eq (env : Env) (s : ℚ) :
    ∀ (legs : List VenueId) (i : Nat) (acc orders : List Order),
      (runLegs env s legs i acc).1 = ExecResult.completed orders →
      orders = acc ++ legs.map (fun v => ⟨v, Side.buy, s⟩) := by
  intro legs
  induction legs with
  | nil =>
    intro i acc orders h
    simp only [runLegs, ExecResult.completed.injEq] at h
    simp [h.symm]
  | cons v rest ih =>
    intro i acc orders h
    simp only [runLegs] at h
    rcases hp : (place_order (env.configs v) (env.venues v) v Side.buy s).1 with _ | o
    · rw [hp] at h
      simp at h
    · rw [hp] at h
      simp only at h
      have ho := place_order_eq_some hp
      subst ho
      have := ih (i + 1) (acc ++ [⟨v, Side.buy, s⟩]) orders h
      simpa using this

/-- The loop body of `execute_arbitrage` that ends in `failedLeg k orders`
has: `k` at least the starting index, the failing leg inside the iterated
list, `orders` equal to the accumulator followed by one buy order per leg
before the failing one, and `place_order` invoked exactly once per leg up to
and including the failing one. -/
theorem runLegs_failed_spec (env : Env) (s : ℚ) :
    ∀ (legs : List VenueId) (i : Nat) (acc : List Order) (k : Nat) (orders : List Order),
      (runLegs env s legs i acc).1 = ExecResult.failedLeg k orders →
      i ≤ k ∧ k - i < legs.length ∧
      orders = acc ++ (legs.take (k - i)).map (fun v => ⟨v, Side.buy, s⟩) ∧
      (runLegs env s legs i acc).2.2 = (k - i) + 1 := by
  intro legs
  induction legs with
  | nil =>
    intro i acc k orders h
    simp [runLegs] at h
  | cons v rest ih =>
    intro i acc k orders h
    rcases hp : (place_order (env.configs v) (env.venues v) v Side.buy s).1 with _ | o
    · simp only [runLegs, hp, ExecResult.failedLeg.injEq] at h
      obtain ⟨hk, ho⟩ := h
      subst hk
      refine ⟨Nat.le_refl i, by simp, by simp [ho.symm], ?_⟩
      simp [runLegs, hp]
    · simp only [runLegs, hp] at h
      have ho := place_order_eq_some hp
      subst ho
      obtain ⟨hik, hlt, hor, hcnt⟩ := ih (i + 1) (acc ++ [⟨v, Side.buy, s⟩]) k orders h
      have hik' : i ≤ k := Nat.le_of_succ_le hik
      have hki : k - i = (k - (i + 1)) + 1 := by omega
      refine ⟨hik', by simp; omega, ?_, ?_⟩
      · rw [hki, List.take_succ_cons, hor]
        simp
      · simp only [runLegs, hp]
        simp only at hcnt
        rw [hcnt]
        omega

/-! ### Concrete fixtures (the `coinbasepro` configuration of `main`,
bot.py:142-148, and small venue behaviours used to exercise the engine) -/

/-- The venue configuration constructed in `main` (bot.py:142-148). -/
def cfgStd : ExchangeConfig := ⟨5/1000, 0, 1/10000, 1, 3⟩

/-- A healthy venue: ample balance, orders succeed. -/
def venueGood : VenueState := ⟨some [(btc, some 10)], true⟩

/-- A venue whose market-order endpoint raises. -/
def venueFailOrder : VenueState := ⟨some [(btc, some 10)], false⟩

/-- A venue whose available balance is below the engine's default size cap. -/
def venueLowBalance : VenueState := ⟨some [(btc, some (1/10000))], true⟩

/-- A venue whose `fetch_balance` raises. -/
def venueBalanceError : VenueState := ⟨none, true⟩

/-- Environment in which every venue is healthy. -/
def envGood : Env := ⟨fun _ => cfgStd, fun _ => venueGood⟩

/-- Environment in which venue 1's market-order endpoint raises. -/
def envFailAt1 : Env := ⟨fun _ => cfgStd, fun v => if v = 1 then venueFailOrder else venueGood⟩

/-- Environment in which venue 1's balance is below the computed size. -/
def envLowAt1 : Env := ⟨fun _ => cfgStd, fun v => if v = 1 then venueLowBalance else venueGood⟩

/-- Environment in which venue 1's balance query fails. -/
def envBalErrAt1 : Env :=
  ⟨fun _ => cfgStd, fun v => if v = 1 then venueBalanceError else venueGood⟩

/-- C2 (amended): a run of `execute_arbitrage` that completes normally has
placed exactly one market (buy) order of the computed size per leg *except
the last* — `len(opportunity) - 1` orders, in strict opportunity order. -/
theorem execute_completed_one_order_per_leg_except_last (env : Env)
    (opportunity : List VenueId) (prices : List (VenueId × ℚ)) (orders : List Order)
    (h : (execute_arbitrage env opportunity prices).result = ExecResult.completed orders) :
    ∃ order_size, calculate_optimal_order_size prices = some order_size ∧
      orders = opportunity.dropLast.map (fun v => ⟨v, Side.buy, order_size⟩) := by
  rcases hc : calculate_optimal_order_size prices with _ | s
  · simp only [execute_arbitrage, hc] at h
    simp at h
  · simp only [execute_arbitrage, hc] at h
    by_cases hb : (opportunity.map fun v => get_balance (env.venues v) btc).any Option.isNone = true
    · rw [if_pos hb] at h
      simp at h
    · rw [if_neg hb] at h
      by_cases ha : opportunity.all (fun v => (prices.lookup v).isSome) = true
      · rw [if_pos ha] at h
        simp only at h
        exact ⟨s, rfl, by simpa using runLegs_completed_eq env s opportunity.dropLast 0 [] orders h⟩
      · rw [if_neg ha] at h
        simp at h

/-- C6: if the order on leg `k` (0-indexed) fails during execution, the
engine has recorded exactly the orders of legs `0..k-1`, in opportunity
order, and `place_order` was invoked exactly `k + 1` times — no later leg is
ever attempted. -/
theorem execute_failed_leg_prefix_and_call_count (env : Env) (opportunity : List VenueId)
    (prices : List (VenueId × ℚ)) (k : Nat) (orders : List Order)
    (h : (execute_arbitrage env opportunity prices).result = ExecResult.failedLeg k orders) :
    orders.length = k ∧
    orders.map (fun o => o.venue) = opportunity.take k ∧
    (execute_arbitrage env opportunity prices).orderAttempts = k + 1 := by
  rcases hc : calculate_optimal_order_size prices with _ | s
  · simp only [execute_arbitrage, hc] at h
    simp at h
  · simp only [execute_arbitrage, hc] at h ⊢
    by_cases hb : (opportunity.map fun v => get_balance (env.venues v) btc).any Option.isNone = true
    · rw [if_pos hb] at h
      simp at h
    · rw [if_neg hb] at h ⊢
      by_cases ha : opportunity.all (fun v => (prices.lookup v).isSome) = true
      · rw [if_pos ha] at h ⊢
        simp only at h ⊢
        obtain ⟨-, hlt, hor, hcnt⟩ :=
          runLegs_failed_spec env s opportunity.dropLast 0 [] k orders h
        simp only [Nat.sub_zero] at hlt hor hcnt
        have hlen : opportunity.dropLast.length = opportunity.length - 1 :=
          List.length_dropLast opportunity
        refine ⟨?_, ?_, hcnt⟩
        · rw [hor]
          simp [List.length_take]
          omega
        · rw [hor]
          simp only [List.nil_append, List.map_map]
          have : ((fun o => Order.venue o) ∘ fun v => (⟨v, Side.buy, s⟩ : Order)) = id := by
            funext v
            rfl
          rw [this, List.map_id, List.dropLast_eq_take, List.take_take]
          congr 1
          omega
      · rw [if_neg ha] at h
        simp at h

/-- C4 (amended): when some leg is absent from a non-empty snapshot, the
engine still issues exactly one balance fetch per leg, but invokes
`place_order` zero times; the run ends either in the balance-verification
abort or in the uncaught `KeyError` of the slippage sum — never in order
placement. -/
theorem execute_missing_leg_no_orders (env : Env) (opportunity : List VenueId)
    (prices : List (VenueId × ℚ)) (v : VenueId) (hv : v ∈ opportunity)
    (hmiss : prices.lookup v = none) (hne : prices ≠ []) :
    (execute_arbitrage env opportunity prices).calls
        = opportunity.map VenueCall.fetchBalance ∧
    (execute_arbitrage env opportunity prices).orderAttempts = 0 ∧
    ((execute_arbitrage env opportunity prices).result = ExecResult.abortedBalances ∨
     (execute_arbitrage env opportunity prices).result = ExecResult.snapshotError) := by
  obtain ⟨s, hs⟩ := calculate_optimal_order_size_isSome hne
  simp only [execute_arbitrage, hs]
  by_cases hb : (opportunity.map fun v => get_balance (env.venues v) btc).any Option.isNone = true
  · rw [if_pos hb]
    simp
  · rw [if_neg hb]
    have ha : opportunity.all (fun v => (prices.lookup v).isSome) ≠ true := by
      intro hall
      have := List.all_eq_true.mp hall v hv
      rw [hmiss] at this
      simp at this
    rw [if_neg ha]
    simp

/-- C5 (amended): when some leg's balance query fails (the fetch raises and
`get_balance` returns `None`), `execute_arbitrage` aborts at balance
verification: its only remote calls are the per-leg balance fetches and
`place_order` is never invoked. -/
theorem execute_balance_failure_aborts_no_orders (env : Env) (opportunity : List VenueId)
    (prices : List (VenueId × ℚ)) (v : VenueId) (hv : v ∈ opportunity)
    (hfail : get_balance (env.venues v) btc = none) (hne : prices ≠ []) :
    (execute_arbitrage env opportunity prices).result = ExecResult.abortedBalances ∧
    (execute_arbitrage env opportunity prices).calls
        = opportunity.map VenueCall.fetchBalance ∧
    (execute_arbitrage env opportunity prices).orderAttempts = 0 := by
  obtain ⟨s, hs⟩ := calculate_optimal_order_size_isSome hne
  simp only [execute_arbitrage, hs]
  have hb : (opportunity.map fun v => get_balance (env.venues v) btc).any Option.isNone = true := by
    rw [List.any_eq_true]
    exact ⟨none, List.mem_map.mpr ⟨v, hv, hfail⟩, rfl⟩
  rw [if_pos hb]
  simp

/-- `List.foldl min` starting from `a` lands in `a :: l`. -/
theorem foldl_min_mem (l : List ℚ) : ∀ a : ℚ, l.foldl min a ∈ a :: l := by
  induction l with
  | nil => intro a; simp [List.foldl]
  | cons b l ih =>
    intro a
    have h := ih (min a b)
    rcases min_choice a b with hm | hm <;> rw [hm] at h <;>
      simp only [List.foldl_cons, hm]
    · rcases List.mem_cons.mp h with h1 | h1
      · exact List.mem_cons.mpr (Or.inl h1)
      · exact List.mem_cons.mpr (Or.inr (List.mem_cons.mpr (Or.inr h1)))
    · rcases List.mem_cons.mp h with h1 | h1
      · exact List.mem_cons.mpr (Or.inr (List.mem_cons.mpr (Or.inl h1)))
      · exact List.mem_cons.mpr (Or.inr (List.mem_cons.mpr (Or.inr h1)))

/-- `List.foldl min` starting from `a` is a lower bound of `a :: l`. -/
theorem foldl_min_le (l : List ℚ) : ∀ a x : ℚ, x ∈ a :: l → l.foldl min a ≤ x := by
  induction l with
  | nil =>
    intro a x hx
    simp only [List.mem_singleton] at hx
    simp [List.foldl, hx]
  | cons b l ih =>
    intro a x hx
    simp only [List.foldl_cons]
    rcases List.mem_cons.mp hx with h1 | h1
    · rw [h1]
      exact le_trans (ih (min a b) (min a b) (List.mem_cons_self _ _)) (min_le_left a b)
    · rcases List.mem_cons.mp h1 with h2 | h2
      · rw [h2]
        exact le_trans (ih (min a b) (min a b) (List.mem_cons_self _ _)) (min_le_right a b)
      · exact ih (min a b) x (List.mem_cons.mpr (Or.inr h2))

/-- C7: for a non-empty snapshot, `calculate_optimal_order_size` returns
`min(defaultCap, minLiquidityRate * liquidityFraction)` with
`defaultCap = 0.001` and `liquidityFraction = 0.01`, where
`minLiquidityRate` is the minimum `rate` among the snapshot's entries. -/
theorem calculate_optimal_order_size_min_policy (prices : List (VenueId × ℚ))
    (hne : prices ≠ []) :
    ∃ m, m ∈ prices.map Prod.snd ∧ (∀ r ∈ prices.map Prod.snd, m ≤ r) ∧
      calculate_optimal_order_size prices = some (min (1/1000) (m * (1/100))) := by
  cases prices with
  | nil => exact absurd rfl hne
  | cons p ps =>
    refine ⟨(ps.map Prod.snd).foldl min p.2, ?_, ?_, ?_⟩
    · simpa using foldl_min_mem (ps.map Prod.snd) p.2
    · intro r hr
      exact foldl_min_le (ps.map Prod.snd) p.2 r (by simpa using hr)
    · rfl

/-- C8: `place_order` rejects an amount strictly below the venue's minimum
or strictly above its maximum before issuing any remote call, and a market
order is submitted to the venue only when the amount is within bounds. -/
theorem place_order_size_bounds (config : ExchangeConfig) (venue : VenueState)
    (exchange_id : VenueId) (side : Side) (amount : ℚ) :
    (amount < config.min_order_size ∨ config.max_order_size < amount →
      place_order config venue exchange_id side amount = (none, [])) ∧
    (∀ s a, VenueCall.marketOrder exchange_id s a
        ∈ (place_order config venue exchange_id side amount).2 →
      config.min_order_size ≤ amount ∧ amount ≤ config.max_order_size) := by
  constructor
  · intro h
    unfold place_order
    by_cases h1 : amount < config.min_order_size
    · rw [if_pos h1]
    · rw [if_neg h1]
      have h2 : config.max_order_size < amount := h.resolve_left h1
      rw [if_pos h2]
  · intro s a hmem
    unfold place_order at hmem
    by_cases h1 : amount < config.min_order_size
    · rw [if_pos h1] at hmem
      simp at hmem
    · rw [if_neg h1] at hmem
      by_cases h2 : config.max_order_size < amount
      · rw [if_pos h2] at hmem
        simp at hmem
      · exact ⟨le_of_not_lt h1, le_of_not_lt h2⟩

/-- C10: when the venue's balance fetch succeeds but the returned mapping
has no entry for the symbol, or the entry has no `free` field, `get_balance`
returns `0` — the same value as for a genuinely zero available balance,
never `None` or an error. -/
theorem get_balance_missing_entry_zero (entries : List (Asset × Option ℚ)) (ok : Bool)
    (symbol : Asset) :
    (entries.lookup symbol = none → get_balance ⟨some entries, ok⟩ symbol = some 0) ∧
    (entries.lookup symbol = some none → get_balance ⟨some entries, ok⟩ symbol = some 0) ∧
    (entries.lookup symbol = some (some 0) → get_balance ⟨some entries, ok⟩ symbol = some 0) := by
  refine ⟨fun h => ?_, fun h => ?_, fun h => ?_⟩ <;>
    simp only [get_balance, h]

/-- C1: with equal rates on both legs the expected gross differential is `0`,
which is at most the summed trading fees plus summed estimated slippage, yet
`execute_arbitrage` still completes and submits a market order to the venue:
the engine computes `total_slippage` but never performs the profitability
check its own comments describe. -/
theorem unprofitable_opportunity_still_places_orders :
    (100 - 100) / 100
        ≤ (envGood.configs 0).trading_fee + (envGood.configs 1).trading_fee
          + total_slippage [0, 1] (1/1000) [(0, 100), (1, 100)] ∧
    (execute_arbitrage envGood [0, 1] [(0, 100), (1, 100)]).result
      = ExecResult.completed [⟨0, Side.buy, 1/1000⟩] ∧
    VenueCall.marketOrder 0 Side.buy (1/1000)
      ∈ (execute_arbitrage envGood [0, 1] [(0, 100), (1, 100)]).calls := by
  refine ⟨?_, ?_, ?_⟩ <;>
    simp [execute_arbitrage, calculate_optimal_order_size, total_slippage, estimate_slippage,
      envGood, cfgStd, venueGood, runLegs, place_order, get_balance, btc, List.lookup] <;>
    norm_num

/-- C2 (counterexample): a two-leg opportunity in which every leg order
succeeds places exactly one market order, not one per leg: the loop iterates
`range(len(opportunity) - 1)`. -/
theorem two_leg_success_places_single_order :
    (execute_arbitrage envGood [0, 1] [(0, 100), (1, 102)]).result
      = ExecResult.completed [⟨0, Side.buy, 1/1000⟩] ∧
    [(⟨0, Side.buy, 1/1000⟩ : Order)].length ≠ ([0, 1] : List VenueId).length := by
  refine ⟨?_, by decide⟩
  simp [execute_arbitrage, calculate_optimal_order_size, envGood, cfgStd, venueGood,
    runLegs, place_order, get_balance, btc, List.lookup] <;> norm_num

/-- C2 witness: the completed two-leg run is described by the amended
statement at a concrete input. -/
theorem execute_completed_one_order_per_leg_except_last_witness :
    ∃ order_size, calculate_optimal_order_size [(0, 100), (1, 102)] = some order_size ∧
      [(⟨0, Side.buy, 1/1000⟩ : Order)]
        = ([0, 1] : List VenueId).dropLast.map (fun v => ⟨v, Side.buy, order_size⟩) :=
  execute_completed_one_order_per_leg_except_last envGood [0, 1] [(0, 100), (1, 102)]
    [⟨0, Side.buy, 1/1000⟩]
    (by simp [execute_arbitrage, calculate_optimal_order_size, envGood, cfgStd, venueGood,
          runLegs, place_order, get_balance, btc, List.lookup] <;> norm_num)

/-- C3: in a three-leg cycle where every order succeeds, the second placed
order — a subsequent leg, which per the intended design should complete the
cycle with a sell — is submitted with side `buy`: bot.py:125 hardcodes
`"buy"` for every leg. -/
theorem three_leg_second_order_side_is_buy :
    (execute_arbitrage envGood [0, 1, 2] [(0, 100), (1, 102), (2, 104)]).result
      = ExecResult.completed [⟨0, Side.buy, 1/1000⟩, ⟨1, Side.buy, 1/1000⟩] ∧
    (⟨1, Side.buy, 1/1000⟩ : Order).side = Side.buy ∧
    Side.buy ≠ Side.sell := by
  refine ⟨?_, rfl, by decide⟩
  simp [execute_arbitrage, calculate_optimal_order_size, envGood, cfgStd, venueGood,
    runLegs, place_order, get_balance, btc, List.lookup] <;> norm_num

/-- C4 (counterexample): leg 1 is absent from the snapshot, yet the engine
performs two remote balance fetches before dying on the `KeyError` of the
slippage sum — not zero remote calls and not a clean abort. -/
theorem missing_leg_still_fetches_balances :
    execute_arbitrage envGood [0, 1] [(0, 100)]
      = ⟨ExecResult.snapshotError, [VenueCall.fetchBalance 0, VenueCall.fetchBalance 1], 0⟩ ∧
    [VenueCall.fetchBalance 0, VenueCall.fetchBalance 1].length ≠ 0 := by
  refine ⟨?_, by decide⟩
  simp [execute_arbitrage, calculate_optimal_order_size, envGood, cfgStd, venueGood,
    runLegs, place_order, get_balance, btc, List.lookup] <;> norm_num

/-- C4 witness: the amended statement at a concrete input with leg 1 absent
from the snapshot. -/
theorem execute_missing_leg_no_orders_witness :
    (execute_arbitrage envGood [0, 1] [(0, 100)]).calls
        = ([0, 1] : List VenueId).map VenueCall.fetchBalance ∧
    (execute_arbitrage envGood [0, 1] [(0, 100)]).orderAttempts = 0 ∧
    ((execute_arbitrage envGood [0, 1] [(0, 100)]).result = ExecResult.abortedBalances ∨
     (execute_arbitrage envGood [0, 1] [(0, 100)]).result = ExecResult.snapshotError) :=
  execute_missing_leg_no_orders envGood [0, 1] [(0, 100)] 1 (by decide) (by decide) (by decide)

/-- C5 (counterexample): leg 1's available balance (`0.0001`) is below the
computed order size (`0.001`) and every balance query succeeds, yet the run
completes and a market order is submitted on venue 0 — the engine never
compares the gathered balances against the computed size, and the last leg's
balance is never rechecked because no order is attempted on it. -/
theorem low_balance_leg_still_places_order :
    get_balance (envLowAt1.venues 1) btc = some (1/10000) ∧
    calculate_optimal_order_size [(0, 100), (1, 102)] = some (1/1000) ∧
    (1/10000 : ℚ) < 1/1000 ∧
    (execute_arbitrage envLowAt1 [0, 1] [(0, 100), (1, 102)]).result
      = ExecResult.completed [⟨0, Side.buy, 1/1000⟩] ∧
    VenueCall.marketOrder 0 Side.buy (1/1000)
      ∈ (execute_arbitrage envLowAt1 [0, 1] [(0, 100), (1, 102)]).calls := by
  refine ⟨?_, ?_, by norm_num, ?_, ?_⟩ <;>
    simp [execute_arbitrage, calculate_optimal_order_size, envLowAt1, cfgStd, venueGood,
      venueLowBalance, runLegs, place_order, get_balance, btc, List.lookup] <;>
    norm_num

/-- C5 witness: the amended statement at a concrete input where venue 1's
balance fetch raises. -/
theorem execute_balance_failure_aborts_no_orders_witness :
    (execute_arbitrage envBalErrAt1 [0, 1] [(0, 100), (1, 102)]).result
        = ExecResult.abortedBalances ∧
    (execute_arbitrage envBalErrAt1 [0, 1] [(0, 100), (1, 102)]).calls
        = ([0, 1] : List VenueId).map VenueCall.fetchBalance ∧
    (execute_arbitrage envBalErrAt1 [0, 1] [(0, 100), (1, 102)]).orderAttempts = 0 :=
  execute_balance_failure_aborts_no_orders envBalErrAt1 [0, 1] [(0, 100), (1, 102)] 1
    (by decide) (by rfl) (by decide)

/-- C6 witness: venue 1's order endpoint raises; the run fails at leg 1 with
leg 0's order recorded and exactly two `place_order` invocations. -/
theorem execute_failed_leg_prefix_and_call_count_witness :
    [(⟨0, Side.buy, 1/1000⟩ : Order)].length = 1 ∧
    [(⟨0, Side.buy, 1/1000⟩ : Order)].map (fun o => o.venue)
        = ([0, 1, 2] : List VenueId).take 1 ∧
    (execute_arbitrage envFailAt1 [0, 1, 2] [(0, 100), (1, 102), (2, 104)]).orderAttempts
        = 1 + 1 :=
  execute_failed_leg_prefix_and_call_count envFailAt1 [0, 1, 2]
    [(0, 100), (1, 102), (2, 104)] 1 [⟨0, Side.buy, 1/1000⟩]
    (by simp [execute_arbitrage, calculate_optimal_order_size, envFailAt1, cfgStd, venueGood,
          venueFailOrder, runLegs, place_order, get_balance, btc, List.lookup] <;> norm_num)

/-- C7 witness: the policy at the spec's scenario — rates `100` and `102`
give `min(0.001, 100 * 0.01) = min(0.001, 1.0) = 0.001`. -/
theorem calculate_optimal_order_size_min_policy_witness :
    (∃ m, m ∈ ([(0, 100), (1, 102)] : List (VenueId × ℚ)).map Prod.snd ∧
        (∀ r ∈ ([(0, 100), (1, 102)] : List (VenueId × ℚ)).map Prod.snd, m ≤ r) ∧
        calculate_optimal_order_size [(0, 100), (1, 102)]
          = some (min (1/1000) (m * (1/100)))) ∧
    calculate_optimal_order_size [(0, 100), (1, 102)] = some (1/1000) :=
  ⟨calculate_optimal_order_size_min_policy [(0, 100), (1, 102)] (by decide),
   by simp [calculate_optimal_order_size] <;> norm_num⟩

/-- C8 witness: amount `2` exceeds the configured maximum `1`, so the call
fails with no venue interaction; amount `0.001` is within `[0.0001, 1]` and
its market order is submitted. -/
theorem place_order_size_bounds_witness :
    place_order cfgStd venueGood 0 Side.buy 2 = (none, []) ∧
    (cfgStd.min_order_size ≤ 1/1000 ∧ (1/1000 : ℚ) ≤ cfgStd.max_order_size) :=
  ⟨(place_order_size_bounds cfgStd venueGood 0 Side.buy 2).1 (Or.inr (by norm_num [cfgStd])),
   (place_order_size_bounds cfgStd venueGood 0 Side.buy (1/1000)).2 Side.buy (1/1000)
     (by simp [place_order, cfgStd, venueGood, get_balance, btc, List.lookup] <;> norm_num)⟩

/-- C10 witness: a response without the symbol, a response whose record
lacks the `free` field, and a response with a genuinely zero `free` balance
all yield `0`. -/
theorem get_balance_missing_entry_zero_witness :
    get_balance ⟨some [], true⟩ btc = some 0 ∧
    get_balance ⟨some [(btc, none)], true⟩ btc = some 0 ∧
    get_balance ⟨some [(btc, some 0)], true⟩ btc = some 0 :=
  ⟨(get_balance_missing_entry_zero [] true btc).1 rfl,
   (get_balance_missing_entry_zero [(btc, none)] true btc).2.1 (by decide),
   (get_balance_missing_entry_zero [(btc, some 0)] true btc).2.2 (by decide)⟩
